import Mathlib

/-!
Shallow embedding of the execution-control layer of dynarmic's arm64 A32
backend (`src/src/dynarmic/backend/arm64/a32_interface.cpp`), covering the
`Jit::Impl` state (halt-reason bitmask, pending cache-invalidation tracker,
reentrancy flag, live register state), the tracker entry points
(`ClearCache`, `InvalidateCacheRange`), the drain
(`PerformRequestedCacheInvalidation`), the execution driver (`Run`/`Step`),
register-state reset and context save/load.

Modelling conventions:
- 32-bit and 64-bit machine integers are `Nat` with explicit `% 2^32` /
  `% 2^64` where the C++ would wrap or truncate.
- Calls to external collaborators (the address space's `ClearCache`, the
  core's `Run`/`Step`), atomic operations on the halt mask, acquisitions and
  releases of `invalidation_mutex`, and accesses to the lock-guarded
  invalidation payload are recorded as an event trace in program order, so
  that call counts and lock discipline are stated directly.
- A fatal `ASSERT` is an explicit outcome (`Option`/`RunOutcome`): the
  function reports failure instead of aborting the process.
- The core collaborator is an oracle parameter; a `fault` outcome models a
  failure propagating out of the collaborator, which in the C++ unwinds
  through the `SCOPE_EXIT` guard.
-/

namespace DynarmicA32

/-- Modelled from the spec: the guest register file (`A32JitState`,
`a32_jitstate.h`, which is not under `src/`): 16 general-purpose 32-bit
registers, 64 extension 32-bit registers, CPSR and FPSCR as raw 32-bit
get/set values, and one exclusive-access flag. -/
structure A32JitState where
  regs : List Nat
  ext_regs : List Nat
  cpsr : Nat
  fpscr : Nat
  exclusive_state : Bool
deriving DecidableEq, Repr

/-- Modelled from the spec: the documented default (reset) encoding of CPSR. -/
def cpsrDefault : Nat := 0

/-- Modelled from the spec: the documented default (reset) encoding of FPSCR. -/
def fpscrDefault : Nat := 0

/-- Modelled from the spec: the value-initialized register state (`current_state = {}`):
all general-purpose and extension registers zero, CPSR/FPSCR at their default
encodings, exclusive-access flag false. -/
def A32JitState.default : A32JitState :=
  { regs := List.replicate 16 0
    ext_regs := List.replicate 64 0
    cpsr := cpsrDefault
    fpscr := fpscrDefault
    exclusive_state := false }

/-- Modelled from the spec: the halt-reason bit raised for a pending cache
invalidation (`HaltReason::CacheInvalidation`; the halt-reason header is not
under `src/`). It is one dedicated bit of the 32-bit mask; its concrete
position is immaterial to the claims. -/
def CacheInvalidation : Nat := 2

/-- All-ones mask of a 32-bit word, used for bitwise complement. -/
def u32mask : Nat := 2 ^ 32 - 1

/-- Model of `boost::icl::interval_set<u32>`: the external library value is
characterized here by the multiset of closed intervals added since the last
`clear`. The observations the code makes of it (`empty()`, clearing, and
which addresses are covered) are defined on that list; `boost`'s eager
merging of overlapping intervals only canonicalizes the representation and
does not change any of these observations. -/
structure IntervalSet where
  intervals : List (Nat × Nat)
deriving DecidableEq, Repr

/-- `interval_set::add` of the closed interval `[lo, hi]`. -/
def IntervalSet.add (s : IntervalSet) (lo hi : Nat) : IntervalSet :=
  ⟨(lo, hi) :: s.intervals⟩

/-- `interval_set::empty()`: true iff no added interval contains any address
(a closed interval `[lo, hi]` with `hi < lo` is the empty interval, which
`boost::icl` does not store). -/
def IntervalSet.empty (s : IntervalSet) : Bool :=
  s.intervals.all (fun p => p.2 < p.1)

/-- `interval_set::clear()` (also the default-constructed set). -/
def IntervalSet.clear : IntervalSet := ⟨[]⟩

/-- Whether address `a` is covered by the interval set. -/
def IntervalSet.contains (s : IntervalSet) (a : Nat) : Bool :=
  s.intervals.any (fun p => p.1 ≤ a && a ≤ p.2)

/-- Observable actions of `Jit::Impl`, recorded in program order: atomic
halt-mask updates, `invalidation_mutex` acquisition/release, accesses to the
mutex-guarded invalidation payload (`invalidate_entire_cache` /
`invalid_cache_ranges`), calls to the address-space collaborator's
`ClearCache`, setting/`SCOPE_EXIT`-clearing of `is_executing`, and the
delegations to the core collaborator. -/
inductive Event where
  | clearHaltBit (bit : Nat)
  | setHaltBit (bit : Nat)
  | lockAcquire
  | lockRelease
  | payloadAccess
  | addrSpaceClearCache
  | execSet
  | execClear
  | coreRun
  | coreStep
deriving DecidableEq, Repr

/-- The mutable state of `Jit::Impl` (with `Jit::is_executing`, which the
implementation reaches through `jit_interface`, included as a field). The
address-space collaborator's cache content is not part of this state; calls
that would discard it appear in the event trace. -/
structure ImplState where
  current_state : A32JitState
  halt_reason : Nat
  invalid_cache_ranges : IntervalSet
  invalidate_entire_cache : Bool
  is_executing : Bool
deriving DecidableEq, Repr

/-- `Jit::Impl::HaltExecution`: `Atomic::Or(&halt_reason, static_cast<u32>(hr))`. -/
def HaltExecution (s : ImplState) (hr : Nat) : ImplState :=
  { s with halt_reason := s.halt_reason ||| hr % 2 ^ 32 }

/-- `Jit::Impl::ClearHalt`: `Atomic::And(&halt_reason, ~static_cast<u32>(hr))`. -/
def ClearHalt (s : ImplState) (hr : Nat) : ImplState :=
  { s with halt_reason := s.halt_reason &&& (u32mask ^^^ hr % 2 ^ 32) }

/-- `Jit::Impl::ClearCache`: under `invalidation_mutex`, set
`invalidate_entire_cache` and raise the cache-invalidation halt bit. (The
source does not touch `invalid_cache_ranges` here.) -/
def ClearCache (s : ImplState) : ImplState × List Event :=
  (HaltExecution { s with invalidate_entire_cache := true } CacheInvalidation,
   [Event.lockAcquire, Event.payloadAccess, Event.setHaltBit CacheInvalidation,
    Event.lockRelease])

/-- The inclusive end address `static_cast<u32>(start_address + length - 1)`
computed by `InvalidateCacheRange`: `start_address` is `u32`, `length` is
`size_t`, the sum is taken in 64 bits (subtracting 1 wraps modulo `2^64`)
and the cast truncates modulo `2^32`. -/
def wrappedEnd (start_address length : Nat) : Nat :=
  (start_address % 2 ^ 32 + length % 2 ^ 64 + (2 ^ 64 - 1)) % 2 ^ 32

/-- `Jit::Impl::InvalidateCacheRange`: under `invalidation_mutex`, add the
closed interval `[start_address, static_cast<u32>(start_address + length - 1)]`
to `invalid_cache_ranges` and raise the cache-invalidation halt bit.
A fatal assertion firing in the body would be `none`; the source body
(`a32_interface.cpp` lines 122-126) contains no assertion, so the function
returns `some` for every argument, including `length = 0`. -/
def InvalidateCacheRange (s : ImplState) (start_address length : Nat) :
    Option (ImplState × List Event) :=
  let hi := wrappedEnd start_address length
  let s1 := { s with invalid_cache_ranges :=
                s.invalid_cache_ranges.add (start_address % 2 ^ 32) hi }
  some
    (HaltExecution s1 CacheInvalidation,
     [Event.lockAcquire, Event.payloadAccess, Event.setHaltBit CacheInvalidation,
      Event.lockRelease])

/-- `Jit::Impl::PerformRequestedCacheInvalidation`: clear the
cache-invalidation halt bit, then read `invalidate_entire_cache`; if set,
call the address space's `ClearCache`, clear the flag and the range set and
return; otherwise, if `invalid_cache_ranges` is non-empty, call the address
space's `ClearCache` and clear the range set; otherwise do nothing. The
source acquires no lock in this function. `addrSpaceFault = true` makes the
address-space `ClearCache` call fail (modelling a failure propagating out of
the collaborator): the returned `Bool` is `true` and the statements after
the call do not execute. -/
def PerformRequestedCacheInvalidation (addrSpaceFault : Bool) (s : ImplState) :
    ImplState × List Event × Bool :=
  let s1 := ClearHalt s CacheInvalidation
  if s1.invalidate_entire_cache then
    if addrSpaceFault then
      (s1,
       [Event.clearHaltBit CacheInvalidation, Event.payloadAccess,
        Event.addrSpaceClearCache],
       true)
    else
      ({ s1 with invalidate_entire_cache := false,
                 invalid_cache_ranges := IntervalSet.clear },
       [Event.clearHaltBit CacheInvalidation, Event.payloadAccess,
        Event.addrSpaceClearCache, Event.payloadAccess],
       false)
  else if !s1.invalid_cache_ranges.empty then
    if addrSpaceFault then
      (s1,
       [Event.clearHaltBit CacheInvalidation, Event.payloadAccess,
        Event.payloadAccess, Event.addrSpaceClearCache],
       true)
    else
      ({ s1 with invalid_cache_ranges := IntervalSet.clear },
       [Event.clearHaltBit CacheInvalidation, Event.payloadAccess,
        Event.payloadAccess, Event.addrSpaceClearCache, Event.payloadAccess],
       false)
  else
    (s1,
     [Event.clearHaltBit CacheInvalidation, Event.payloadAccess,
      Event.payloadAccess],
     false)

/-- Outcome of the core collaborator's `Run`/`Step` delegation: normal
return of a halt reason (with the register state and halt mask it leaves
behind), or a propagated failure. -/
inductive CoreOutcome where
  | ok (st : A32JitState) (halt : Nat) (hr : Nat)
  | fault (st : A32JitState) (halt : Nat)

/-- The core collaborator as an oracle: given the register state and the
current halt mask (reachable through the pointer the driver passes), it
produces an outcome. -/
def CoreOracle : Type := A32JitState → Nat → CoreOutcome

/-- How a `Run`/`Step` call ends: normal return of the core's halt reason,
the entry reentrancy `ASSERT` firing, a failure propagated from the core
collaborator, or a failure propagated from a drain's address-space call. -/
inductive RunOutcome where
  | ok (hr : Nat)
  | assertFail
  | coreFault
  | drainFault
deriving DecidableEq, Repr

/-- `Jit::Impl::Run`: `ASSERT(!jit_interface->is_executing)`; drain; set
`is_executing` with a `SCOPE_EXIT` reset; delegate to `core.Run`; drain
again; return the core's halt reason. The `SCOPE_EXIT` reset of
`is_executing` runs on every exit of the guarded region, including failures
propagated from the core or from the trailing drain. -/
def Run (core : CoreOracle) (addrSpaceFault : Bool) (s : ImplState) :
    ImplState × RunOutcome × List Event :=
  if s.is_executing then (s, RunOutcome.assertFail, [])
  else
    match PerformRequestedCacheInvalidation addrSpaceFault s with
    | (s1, t1, true) => (s1, RunOutcome.drainFault, t1)
    | (s1, t1, false) =>
      let s2 := { s1 with is_executing := true }
      match core s2.current_state s2.halt_reason with
      | CoreOutcome.fault st h =>
          ({ s2 with current_state := st, halt_reason := h, is_executing := false },
           RunOutcome.coreFault,
           t1 ++ [Event.execSet, Event.coreRun, Event.execClear])
      | CoreOutcome.ok st h hr =>
          let s3 := { s2 with current_state := st, halt_reason := h }
          match PerformRequestedCacheInvalidation addrSpaceFault s3 with
          | (s4, t2, true) =>
              ({ s4 with is_executing := false }, RunOutcome.drainFault,
               t1 ++ [Event.execSet, Event.coreRun] ++ t2 ++ [Event.execClear])
          | (s4, t2, false) =>
              ({ s4 with is_executing := false }, RunOutcome.ok hr,
               t1 ++ [Event.execSet, Event.coreRun] ++ t2 ++ [Event.execClear])

/-- `Jit::Impl::Step`: identical control flow to `Run`, delegating to
`core.Step`. -/
def Step (core : CoreOracle) (addrSpaceFault : Bool) (s : ImplState) :
    ImplState × RunOutcome × List Event :=
  if s.is_executing then (s, RunOutcome.assertFail, [])
  else
    match PerformRequestedCacheInvalidation addrSpaceFault s with
    | (s1, t1, true) => (s1, RunOutcome.drainFault, t1)
    | (s1, t1, false) =>
      let s2 := { s1 with is_executing := true }
      match core s2.current_state s2.halt_reason with
      | CoreOutcome.fault st h =>
          ({ s2 with current_state := st, halt_reason := h, is_executing := false },
           RunOutcome.coreFault,
           t1 ++ [Event.execSet, Event.coreStep, Event.execClear])
      | CoreOutcome.ok st h hr =>
          let s3 := { s2 with current_state := st, halt_reason := h }
          match PerformRequestedCacheInvalidation addrSpaceFault s3 with
          | (s4, t2, true) =>
              ({ s4 with is_executing := false }, RunOutcome.drainFault,
               t1 ++ [Event.execSet, Event.coreStep] ++ t2 ++ [Event.execClear])
          | (s4, t2, false) =>
              ({ s4 with is_executing := false }, RunOutcome.ok hr,
               t1 ++ [Event.execSet, Event.coreStep] ++ t2 ++ [Event.execClear])

/-- `Jit::Impl::Reset`: `current_state = {}`. It performs no collaborator
call (empty trace) and touches nothing but the register state. -/
def Reset (s : ImplState) : ImplState × List Event :=
  ({ s with current_state := A32JitState.default }, [])

/-- `Context`: an independently owned copy of an `A32JitState`
(`Context::Impl` holds the state by value; copy construction and copy
assignment replicate it). -/
structure Context where
  state : A32JitState
deriving DecidableEq, Repr

/-- `Jit::Impl::SaveContext` (returning form): `ctx.impl->state = current_state`. -/
def SaveContext (s : ImplState) : Context :=
  ⟨s.current_state⟩

/-- `Jit::Impl::LoadContext`: `current_state = ctx.impl->state`. -/
def LoadContext (s : ImplState) (ctx : Context) : ImplState :=
  { s with current_state := ctx.state }

/-- `Jit::Impl::ClearExclusiveState`: `current_state.exclusive_state = false`. -/
def ClearExclusiveState (s : ImplState) : ImplState :=
  { s with current_state := { s.current_state with exclusive_state := false } }

/-- Writing one general-purpose register through the `Regs()` accessor:
`jit.Regs()[i] = v`. -/
def setReg (s : ImplState) (i : Nat) (v : Nat) : ImplState :=
  { s with current_state :=
      { s.current_state with regs := s.current_state.regs.set i (v % 2 ^ 32) } }

/-- Checks that every `payloadAccess` in a trace happens at positive
`invalidation_mutex` depth; `d` is the lock depth at the head of the list. -/
def payloadUnderLock : List Event → Nat → Bool
  | [], _ => true
  | Event.lockAcquire :: t, d => payloadUnderLock t (d + 1)
  | Event.lockRelease :: t, d => payloadUnderLock t (d - 1)
  | Event.payloadAccess :: t, d => decide (0 < d) && payloadUnderLock t d
  | _ :: t, d => payloadUnderLock t d

/-- Checks the reentrancy-flag discipline of a trace: every delegation to
the core happens while the flag is set, and the flag is clear at the end of
the trace; `inExec` is the flag value at the head of the list. -/
def execBalanced : List Event → Bool → Bool
  | [], inExec => !inExec
  | Event.execSet :: t, _ => execBalanced t true
  | Event.execClear :: t, _ => execBalanced t false
  | Event.coreRun :: t, inExec => inExec && execBalanced t inExec
  | Event.coreStep :: t, inExec => inExec && execBalanced t inExec
  | _ :: t, inExec => execBalanced t inExec

/-- A freshly constructed `Jit::Impl`: default register state, zero halt
mask, empty tracker, not executing. -/
def initialImpl : ImplState :=
  { current_state := A32JitState.default
    halt_reason := 0
    invalid_cache_ranges := IntervalSet.clear
    invalidate_entire_cache := false
    is_executing := false }

/-- A core oracle that returns immediately, reporting halt reason `1` and
leaving the register state and halt mask unchanged. -/
def immediateCore : CoreOracle := fun st h => CoreOutcome.ok st h 1

/-- A tracker state with one accumulated invalidation range, as left by a
prior `InvalidateCacheRange(0x1000, 0x10)`. -/
def trackerWithRange : ImplState :=
  { initialImpl with invalid_cache_ranges := IntervalSet.mk [(0x1000, 0x100F)] }

/-- The drain's event trace from a state with a pending invalidate-all. -/
def drainTraceAll : List Event :=
  (PerformRequestedCacheInvalidation false
    { initialImpl with invalidate_entire_cache := true }).2.1

lemma drain_is_executing (af : Bool) (s : ImplState) :
    (PerformRequestedCacheInvalidation af s).1.is_executing = s.is_executing := by
  unfold PerformRequestedCacheInvalidation
  dsimp only
  split_ifs <;> rfl

lemma drain_trace_execBalanced (af : Bool) (s : ImplState) (rest : List Event) (b : Bool) :
    execBalanced ((PerformRequestedCacheInvalidation af s).2.1 ++ rest) b
      = execBalanced rest b := by
  unfold PerformRequestedCacheInvalidation
  dsimp only
  split_ifs <;> simp [execBalanced]

/-- Claim C6: saving a context, arbitrarily mutating the live register
state, then loading the saved context restores the live register state
exactly (the snapshot is an independent copy, unaffected by the
mutations); in particular, setting general register 0 to 0xDEADBEEF,
saving, zeroing the register, and loading reads back 0xDEADBEEF. -/
theorem saveContext_loadContext_roundtrip (s mutated : ImplState) :
    (LoadContext mutated (SaveContext s)).current_state = s.current_state
  ∧ (LoadContext (setReg initialImpl 0 0)
        (SaveContext (setReg initialImpl 0 0xDEADBEEF))).current_state.regs.getD 0 0
      = 0xDEADBEEF :=
  ⟨rfl, by decide⟩

/-- Claim C7: after `Reset`, the live register state is the default one:
all 16 general-purpose and all 64 extension registers read 0, CPSR and
FPSCR read their default encodings, and the exclusive-access flag is
false, for every prior state. -/
theorem reset_registers_default (s : ImplState) :
    (Reset s).1.current_state = A32JitState.default
  ∧ A32JitState.default.regs = List.replicate 16 0
  ∧ A32JitState.default.ext_regs = List.replicate 64 0
  ∧ A32JitState.default.cpsr = cpsrDefault
  ∧ A32JitState.default.fpscr = fpscrDefault
  ∧ A32JitState.default.exclusive_state = false :=
  ⟨rfl, rfl, rfl, rfl, rfl, rfl⟩

/-- Claim C8: `Reset` leaves the halt mask, the invalidate-all flag, the
pending range set and the reentrancy flag unchanged, and makes no
collaborator call (in particular no address-space cache discard); only the
live register state is modified. -/
theorem reset_frame (s : ImplState) :
    (Reset s).1.halt_reason = s.halt_reason
  ∧ (Reset s).1.invalidate_entire_cache = s.invalidate_entire_cache
  ∧ (Reset s).1.invalid_cache_ranges = s.invalid_cache_ranges
  ∧ (Reset s).1.is_executing = s.is_executing
  ∧ (Reset s).2 = []
  ∧ Event.addrSpaceClearCache ∉ (Reset s).2 :=
  ⟨rfl, rfl, rfl, rfl, rfl, by simp [Reset]⟩

/-- Claim C2 counterexample: from a state with one accumulated range,
`ClearCache` returns with the range set still non-empty, so the claimed
conjunction (flag set, range set cleared, halt bit raised) fails. -/
theorem clearCache_clears_ranges_counterexample :
    ¬ ((ClearCache trackerWithRange).1.invalidate_entire_cache = true
      ∧ (ClearCache trackerWithRange).1.invalid_cache_ranges.empty = true
      ∧ (ClearCache trackerWithRange).1.halt_reason
          = trackerWithRange.halt_reason ||| CacheInvalidation) := by
  decide

/-- Claim C2 amended: `ClearCache` sets the invalidate-all flag and raises
the cache-invalidation halt bit, but leaves the accumulated range set (and
everything else) unchanged; the range set is only cleared later, by the
drain, where the invalidate-all flag dominates it. -/
theorem clearCache_amended (s : ImplState) :
    (ClearCache s).1.invalidate_entire_cache = true
  ∧ (ClearCache s).1.invalid_cache_ranges = s.invalid_cache_ranges
  ∧ (ClearCache s).1.halt_reason = s.halt_reason ||| CacheInvalidation
  ∧ (ClearCache s).1.current_state = s.current_state
  ∧ (ClearCache s).1.is_executing = s.is_executing := by
  refine ⟨rfl, rfl, ?_, rfl, rfl⟩
  norm_num [ClearCache, HaltExecution, CacheInvalidation]

/-- Claim C9 counterexample: `InvalidateCacheRange` with `length = 0` is
not rejected by a fatal check: at `start = 0x1000` it returns normally,
silently inserting the wrapped closed interval `[0x1000, 0xFFF]` and
raising the cache-invalidation halt bit. -/
theorem invalidateCacheRange_zero_length_counterexample :
    ¬ (InvalidateCacheRange initialImpl 0x1000 0 = none)
  ∧ InvalidateCacheRange initialImpl 0x1000 0
      = some
          ({ initialImpl with
              invalid_cache_ranges := IntervalSet.mk [(0x1000, 0xFFF)],
              halt_reason := CacheInvalidation },
           [Event.lockAcquire, Event.payloadAccess,
            Event.setHaltBit CacheInvalidation, Event.lockRelease]) := by
  exact ⟨by decide, by decide⟩

/-- Claim C9 amended: a zero-length `InvalidateCacheRange` is not checked:
for every state and every start address in `[1, 2^32)` it returns
normally, inserting the wrapped-around closed interval `[start, start - 1]`
(which lies below the start and covers no address) and raising the
cache-invalidation halt bit. -/
theorem invalidateCacheRange_zero_length_amended (s : ImplState) (start : Nat)
    (h1 : 1 ≤ start) (h2 : start < 2 ^ 32) :
    InvalidateCacheRange s start 0
      = some
          (HaltExecution
            { s with invalid_cache_ranges :=
                s.invalid_cache_ranges.add start (start - 1) }
            CacheInvalidation,
           [Event.lockAcquire, Event.payloadAccess,
            Event.setHaltBit CacheInvalidation, Event.lockRelease])
  ∧ start - 1 < start := by
  have hw : wrappedEnd start 0 = start - 1 := by
    unfold wrappedEnd
    omega
  have hm : start % 4294967296 = start := by omega
  refine ⟨?_, by omega⟩
  simp [InvalidateCacheRange, hw, hm]

theorem invalidateCacheRange_zero_length_amended_witness :
    (1 ≤ 0x1000 ∧ 0x1000 < 2 ^ 32)
  ∧ (InvalidateCacheRange initialImpl 0x1000 0
      = some
          (HaltExecution
            { initialImpl with invalid_cache_ranges :=
                initialImpl.invalid_cache_ranges.add 0x1000 (0x1000 - 1) }
            CacheInvalidation,
           [Event.lockAcquire, Event.payloadAccess,
            Event.setHaltBit CacheInvalidation, Event.lockRelease])
    ∧ 0x1000 - 1 < 0x1000) :=
  ⟨⟨by decide, by decide⟩,
   invalidateCacheRange_zero_length_amended initialImpl 0x1000 (by decide) (by decide)⟩

/-- Claim C10: `InvalidateCacheRange` records the closed interval ending at
`(start + length - 1)` reduced modulo `2^32`; when the mathematical end
exceeds `0xFFFFFFFF` the stored end wraps, can lie below the start (e.g.
at start `0x1000`, length `2^32`), and the recorded interval fails to
cover the requested end address; with `length = 0` the end likewise wraps
to `start - 1`. -/
theorem invalidateCacheRange_wrapped_end (s : ImplState) (start len : Nat)
    (hs : start < 2 ^ 32) (hl : 1 ≤ len) (hl64 : len < 2 ^ 64) :
    InvalidateCacheRange s start len
      = some
          (HaltExecution
            { s with invalid_cache_ranges :=
                s.invalid_cache_ranges.add start ((start + len - 1) % 2 ^ 32) }
            CacheInvalidation,
           [Event.lockAcquire, Event.payloadAccess,
            Event.setHaltBit CacheInvalidation, Event.lockRelease])
  ∧ wrappedEnd start len = (start + len - 1) % 2 ^ 32
  ∧ (2 ^ 32 ≤ start + len - 1 →
      (IntervalSet.mk [(start, wrappedEnd start len)]).contains (start + len - 1)
        = false)
  ∧ wrappedEnd 0x1000 (2 ^ 32) < 0x1000
  ∧ wrappedEnd 0x1000 0 = 0x1000 - 1 := by
  have hw : wrappedEnd start len = (start + len - 1) % 2 ^ 32 := by
    unfold wrappedEnd
    omega
  have hm : start % 4294967296 = start := by omega
  refine ⟨by simp [InvalidateCacheRange, hw, hm], hw, ?_, by decide, by decide⟩
  intro hbig
  have hlt : (start + len - 1) % 2 ^ 32 < 2 ^ 32 := Nat.mod_lt _ (by norm_num)
  simp only [IntervalSet.contains, hw, List.any_cons, List.any_nil, Bool.or_false]
  rw [Bool.and_eq_false_iff]
  right
  simp only [decide_eq_false_iff_not]
  omega

theorem invalidateCacheRange_wrapped_end_witness :
    (0x1000 < 2 ^ 32 ∧ 1 ≤ 2 ^ 32 ∧ 2 ^ 32 < 2 ^ 64)
  ∧ wrappedEnd 0x1000 (2 ^ 32) = (0x1000 + 2 ^ 32 - 1) % 2 ^ 32
  ∧ wrappedEnd 0x1000 (2 ^ 32) < 0x1000 :=
  ⟨⟨by decide, by decide, by decide⟩,
   (invalidateCacheRange_wrapped_end initialImpl 0x1000 (2 ^ 32)
      (by decide) (by decide) (by decide)).2.1,
   (invalidateCacheRange_wrapped_end initialImpl 0x1000 (2 ^ 32)
      (by decide) (by decide) (by decide)).2.2.2.1⟩

/-- Claim C1: after `ClearCache` followed by `InvalidateCacheRange`, the
next `PerformRequestedCacheInvalidation` calls the address-space
collaborator's `ClearCache` exactly once (not twice), and immediately
afterwards the invalidate-all flag is false and the pending range set is
empty. -/
theorem clearCache_then_range_single_discard (s : ImplState) (start len : Nat) :
    ∃ r, InvalidateCacheRange (ClearCache s).1 start len = some r
  ∧ ((PerformRequestedCacheInvalidation false r.1).2.1).count Event.addrSpaceClearCache
      = 1
  ∧ (PerformRequestedCacheInvalidation false r.1).1.invalidate_entire_cache = false
  ∧ (PerformRequestedCacheInvalidation false r.1).1.invalid_cache_ranges.empty
      = true := by
  refine ⟨_, rfl, ?_, ?_, ?_⟩ <;>
    simp [PerformRequestedCacheInvalidation, InvalidateCacheRange, ClearCache,
      HaltExecution, ClearHalt, IntervalSet.empty, IntervalSet.clear,
      List.count_cons, List.count_nil]

/-- Claim C3 counterexample: on a concrete state with a pending
invalidate-all, the drain's trace does clear the halt bit first, but its
accesses to the invalidation payload happen at lock depth zero, so the
claimed conjunction (halt bit cleared first AND payload read under the
invalidation lock) fails. -/
theorem drain_locked_read_counterexample :
    ¬ (drainTraceAll.head? = some (Event.clearHaltBit CacheInvalidation)
      ∧ payloadUnderLock drainTraceAll 0 = true) := by
  decide

/-- Claim C3 amended: every drain clears the cache-invalidation halt bit
first (it is the first action of its trace, and the resulting halt mask has
the bit ANDed away), and then reads and clears the invalidation payload
WITHOUT acquiring `invalidation_mutex` — its trace contains no lock
acquisition — whereas the writers `ClearCache` and `InvalidateCacheRange`
perform their payload accesses under the lock. -/
theorem drain_order_and_lock_discipline (af : Bool) (s : ImplState) (start len : Nat) :
    (PerformRequestedCacheInvalidation af s).2.1.head?
      = some (Event.clearHaltBit CacheInvalidation)
  ∧ Event.payloadAccess ∈ (PerformRequestedCacheInvalidation af s).2.1
  ∧ Event.lockAcquire ∉ (PerformRequestedCacheInvalidation af s).2.1
  ∧ (PerformRequestedCacheInvalidation af s).1.halt_reason
      = s.halt_reason &&& (u32mask ^^^ CacheInvalidation)
  ∧ payloadUnderLock (ClearCache s).2 0 = true
  ∧ (∃ r, InvalidateCacheRange s start len = some r ∧ payloadUnderLock r.2 0 = true) := by
  refine ⟨?_, ?_, ?_, ?_, rfl, ⟨_, rfl, rfl⟩⟩ <;>
    (unfold PerformRequestedCacheInvalidation
     dsimp only
     split_ifs <;>
       simp [ClearHalt, CacheInvalidation, u32mask])

/-- Claim C4: `Run`/`Step` invoked while `is_executing` is already true hit
the entry assertion and never delegate to the core collaborator (their
trace is empty and the state is untouched); the entry assertion fails
exactly when `is_executing` is true. -/
theorem run_step_reentrancy_guard (core coreS : CoreOracle) (af : Bool) (s : ImplState) :
    ((Run core af s).2.1 = RunOutcome.assertFail ↔ s.is_executing = true)
  ∧ ((Step coreS af s).2.1 = RunOutcome.assertFail ↔ s.is_executing = true)
  ∧ Run core af { s with is_executing := true }
      = ({ s with is_executing := true }, RunOutcome.assertFail, [])
  ∧ Step coreS af { s with is_executing := true }
      = ({ s with is_executing := true }, RunOutcome.assertFail, []) := by
  have hrun : ∀ (c : CoreOracle) (t : ImplState), t.is_executing = false →
      (Run c af t).2.1 ≠ RunOutcome.assertFail := by
    intro c t ht h
    rw [Run, ht] at h
    simp only [Bool.false_eq_true, if_false] at h
    split at h
    · simp at h
    · split at h
      · simp at h
      · split at h <;> simp at h
  have hstep : ∀ (c : CoreOracle) (t : ImplState), t.is_executing = false →
      (Step c af t).2.1 ≠ RunOutcome.assertFail := by
    intro c t ht h
    rw [Step, ht] at h
    simp only [Bool.false_eq_true, if_false] at h
    split at h
    · simp at h
    · split at h
      · simp at h
      · split at h <;> simp at h
  refine ⟨⟨?_, ?_⟩, ⟨?_, ?_⟩, by rw [Run]; simp, by rw [Step]; simp⟩
  · intro h
    by_contra hx
    exact hrun core s (Bool.not_eq_true _ ▸ hx) h
  · intro h
    rw [Run, h]
    simp
  · intro h
    by_contra hx
    exact hstep coreS s (Bool.not_eq_true _ ▸ hx) h
  · intro h
    rw [Step, h]
    simp

/-- Claim C5: when `Run`/`Step` are entered with the reentrancy flag false,
the flag is false again on every exit path — normal return, a failure
propagated from the core collaborator, and a failure propagated from a
drain — and the trace discipline holds: every delegation to the core
happens while the flag is set, and the flag is clear at the end of the
trace. -/
theorem run_step_exec_flag_restored (core coreS : CoreOracle) (af : Bool) (s : ImplState)
    (h : s.is_executing = false) :
    (Run core af s).1.is_executing = false
  ∧ execBalanced (Run core af s).2.2 false = true
  ∧ (Step coreS af s).1.is_executing = false
  ∧ execBalanced (Step coreS af s).2.2 false = true := by
  have hd1 := drain_is_executing af s
  refine ⟨?_, ?_, ?_, ?_⟩
  · rw [Run, h]
    simp only [Bool.false_eq_true, if_false]
    split
    · rename_i s1 t1 hP
      have : (PerformRequestedCacheInvalidation af s).1 = s1 := by rw [hP]
      rw [← this, hd1, h]
    · split
      · rfl
      · split <;> rfl
  · rw [Run, h]
    simp only [Bool.false_eq_true, if_false]
    split
    · rename_i s1 t1 hP
      have hb := drain_trace_execBalanced af s [] false
      rw [hP] at hb
      simpa [execBalanced] using hb
    · rename_i s1 t1 hP
      split
      · rename_i st hh hc
        have hb := drain_trace_execBalanced af s
          [Event.execSet, Event.coreRun, Event.execClear] false
        rw [hP] at hb
        simpa [execBalanced] using hb
      · rename_i st hh hr hc
        split
        · rename_i s4 t2 hP2
          have hb2 := drain_trace_execBalanced af
            { s1 with current_state := st, halt_reason := hh, is_executing := true }
            [Event.execClear] true
          rw [hP2] at hb2
          have hb := drain_trace_execBalanced af s
            ([Event.execSet, Event.coreRun] ++ t2 ++ [Event.execClear]) false
          rw [hP] at hb
          simp only [← List.append_assoc] at hb ⊢
          rw [hb]
          simpa [execBalanced] using hb2
        · rename_i s4 t2 hP2
          have hb2 := drain_trace_execBalanced af
            { s1 with current_state := st, halt_reason := hh, is_executing := true }
            [Event.execClear] true
          rw [hP2] at hb2
          have hb := drain_trace_execBalanced af s
            ([Event.execSet, Event.coreRun] ++ t2 ++ [Event.execClear]) false
          rw [hP] at hb
          simp only [← List.append_assoc] at hb ⊢
          rw [hb]
          simpa [execBalanced] using hb2
  · rw [Step, h]
    simp only [Bool.false_eq_true, if_false]
    split
    · rename_i s1 t1 hP
      have : (PerformRequestedCacheInvalidation af s).1 = s1 := by rw [hP]
      rw [← this, hd1, h]
    · split
      · rfl
      · split <;> rfl
  · rw [Step, h]
    simp only [Bool.false_eq_true, if_false]
    split
    · rename_i s1 t1 hP
      have hb := drain_trace_execBalanced af s [] false
      rw [hP] at hb
      simpa [execBalanced] using hb
    · rename_i s1 t1 hP
      split
      · rename_i st hh hc
        have hb := drain_trace_execBalanced af s
          [Event.execSet, Event.coreStep, Event.execClear] false
        rw [hP] at hb
        simpa [execBalanced] using hb
      · rename_i st hh hr hc
        split
        · rename_i s4 t2 hP2
          have hb2 := drain_trace_execBalanced af
            { s1 with current_state := st, halt_reason := hh, is_executing := true }
            [Event.execClear] true
          rw [hP2] at hb2
          have hb := drain_trace_execBalanced af s
            ([Event.execSet, Event.coreStep] ++ t2 ++ [Event.execClear]) false
          rw [hP] at hb
          simp only [← List.append_assoc] at hb ⊢
          rw [hb]
          simpa [execBalanced] using hb2
        · rename_i s4 t2 hP2
          have hb2 := drain_trace_execBalanced af
            { s1 with current_state := st, halt_reason := hh, is_executing := true }
            [Event.execClear] true
          rw [hP2] at hb2
          have hb := drain_trace_execBalanced af s
            ([Event.execSet, Event.coreStep] ++ t2 ++ [Event.execClear]) false
          rw [hP] at hb
          simp only [← List.append_assoc] at hb ⊢
          rw [hb]
          simpa [execBalanced] using hb2

theorem run_step_exec_flag_restored_witness :
    initialImpl.is_executing = false
  ∧ ((Run immediateCore false initialImpl).1.is_executing = false
    ∧ execBalanced (Run immediateCore false initialImpl).2.2 false = true
    ∧ (Step immediateCore false initialImpl).1.is_executing = false
    ∧ execBalanced (Step immediateCore false initialImpl).2.2 false = true) :=
  ⟨rfl, run_step_exec_flag_restored immediateCore immediateCore false initialImpl rfl⟩

end DynarmicA32
